import Mathlib

/-!
Verification of the jupyter-kernel-manager core engine against its
natural-language specification.

The definitions below are a shallow embedding of the TypeScript sources:

* `src/kernels/notebookUpdater.ts` — `resolveKernelForNotebook`
* `src/venv/hashTracker.ts`        — `checkFreshness`, `readStoredHash`, `writeHash`
* `src/venv/venvManager.ts`        — `setupKernel`
* `src/venv/mirrorDetector.ts`     — `getPreferredMirror`, `clearMirrorCache`
* `src/kernels/kernelRegistrar.ts` — `registerKernel`, `registerAllKernels`,
                                     `getKernelSpecName`
* `src/config/kernelConfig.ts`     — `validateConfig`

Filesystem and network effects are made explicit: the relevant parts of the
filesystem are a small state record threaded through each operation, external
process outcomes (venv creation, pip install, spec writes) are boolean
oracles, and the MD5 digest is an abstract `String → String` parameter
(its two facts used by the code — a hex digest is non-empty and contains no
surrounding whitespace — appear as hypotheses where needed).
-/

namespace JupyterKernelManager


/-! ## NotebookKernelMapper (`src/kernels/notebookUpdater.ts`) -/

/-- Source: `leadChars n h` is true when the char list `n` is an initial segment of `h`
(the inner loop of JavaScript `String.prototype.includes`). -/
def leadChars : List Char → List Char → Bool
  | [], _ => true
  | _ :: _, [] => false
  | a :: as, b :: bs => a == b && leadChars as bs

/-- Source: `subChars n h` is true when `n` occurs contiguously inside `h`. -/
def subChars : List Char → List Char → Bool
  | n, [] => leadChars n []
  | n, h :: t => leadChars n (h :: t) || subChars n t

/-- JavaScript `hay.includes(needle)`: substring test. -/
def strIncludes (hay needle : String) : Bool :=
  subChars needle.data hay.data

/-- JavaScript `s.toLowerCase()` (character-wise lowering; the inputs in
question are ASCII). Defined on the character list so it evaluates by
structural recursion. -/
def lowerStr (s : String) : String := ⟨s.data.map Char.toLower⟩

/-- Source: `notebookRelPath.replace(/\\/g, '/').toLowerCase()` from
`resolveKernelForNotebook`. -/
def normalizePath (p : String) : String :=
  lowerStr ⟨p.data.map (fun c => if c = '\\' then '/' else c)⟩

/-- The match test applied to each candidate name inside
`resolveKernelForNotebook`: `pathParts.includes(name.toLowerCase())`. -/
def nameMatches (pathParts : String) (name : String) : Bool :=
  strIncludes pathParts (lowerStr name)

/-- Insert `a` in front of the first element whose length is `≤ a.length`.
Together with `sortByLenDesc` this reproduces the output of the stable
JavaScript `[...kernelNames].sort((a, b) => b.length - a.length)`:
a stable sort by a total preorder has a unique result, so any stable
descending-by-length sort yields the engine's list. -/
def insertByLen (a : String) : List String → List String
  | [] => [a]
  | b :: l => if b.length ≤ a.length then a :: b :: l else b :: insertByLen a l

/-- Stable sort by descending string length (see `insertByLen`). -/
def sortByLenDesc : List String → List String
  | [] => []
  | a :: l => insertByLen a (sortByLenDesc l)

/-- Source: `resolveKernelForNotebook` from `src/kernels/notebookUpdater.ts`:
lowercase/normalize the path, scan candidates by descending name length for
a substring match, then fall back to `"default"`, `"common"`, and finally
the first candidate. -/
def resolveKernelForNotebook (notebookRelPath : String) (kernelNames : List String) :
    Option String :=
  let pathParts := normalizePath notebookRelPath
  let sorted := sortByLenDesc kernelNames
  match sorted.find? (fun name => nameMatches pathParts name) with
  | some n => some n
  | none =>
    match (["default", "common"].find? (fun fb => kernelNames.contains fb)) with
    | some fb => some fb
    | none => kernelNames.head?

/-! ## StatusResolver hash tracking (`src/venv/hashTracker.ts`)

`computeFileHash` is `md5(file bytes).hexdigest()`; it is modelled by an
abstract digest function `hash : String → String` applied to the file's
content. Reading a missing file throws, which the callers catch; here file
content is `Option String` (`none` = the file is absent or unreadable). -/

/-- JavaScript `s.trim()`: strip leading and trailing whitespace. Defined on
the character list so it evaluates by structural recursion. -/
def trimStr (s : String) : String :=
  ⟨((s.data.dropWhile Char.isWhitespace).reverse.dropWhile
      Char.isWhitespace).reverse⟩

/-- Source: `readStoredHash` from `src/venv/hashTracker.ts`: the marker file's content
trimmed, or `null` when the marker does not exist / cannot be read.
`markerRaw` is the raw content of the `.requirements_hash` marker file. -/
def readStoredHash (markerRaw : Option String) : Option String :=
  markerRaw.map trimStr

/-- The record returned by `checkFreshness`. -/
structure Freshness where
  upToDate : Bool
  currentHash : String
  storedHash : Option String
deriving DecidableEq, Repr

/-- Source: `checkFreshness` from `src/venv/hashTracker.ts`: if the requirements file
is absent, up to date with empty digest and null stored hash; otherwise
up to date iff the stored marker exists and equals the digest of the
current requirements content. -/
def checkFreshness (hash : String → String) (markerRaw reqContent : Option String) :
    Freshness :=
  match reqContent with
  | none => ⟨true, "", none⟩
  | some c =>
    let currentHash := hash c
    let storedHash := readStoredHash markerRaw
    ⟨(match storedHash with
      | some s => s == currentHash
      | none => false),
      currentHash, storedHash⟩

/-! ## EnvironmentProvisioner (`src/venv/venvManager.ts`, `setupKernel`)

The filesystem slice that `setupKernel` reads and writes:

* `kernelDirExists` — the kernel's containing directory `kernels/<name>`;
* `venvDirExists`   — the `.venv` directory (the marker file lives inside
  it, so removing the venv removes the marker);
* `venvValid`       — `isVenvValid`: the venv's python executable exists;
* `markerRaw`       — content of `.venv/.requirements_hash`, `none` if absent;
* `reqContent`      — content of the resolved requirements file,
  `none` if absent.

External process outcomes are boolean oracles: `createOk` is the exit status
of `python -m venv`, `installOk` of `pip install -r`. The best-effort
`pip install --upgrade pip` step is logged and ignored by the code, so it
does not appear. Workspace/path resolution (`getKernelVenvPath` etc.) is
environmental and outside the state. -/

structure FsState where
  kernelDirExists : Bool
  venvDirExists : Bool
  venvValid : Bool
  markerRaw : Option String
  reqContent : Option String
deriving DecidableEq, Repr

/-- The `SetupResult` record from `src/venv/venvManager.ts` (messages that
embed a filesystem path or hash prefix are modelled by their fixed text). -/
structure SetupResult where
  success : Bool
  kernelName : String
  message : String
deriving DecidableEq, Repr

/-- A `setupKernel` run: its result, the filesystem afterwards, and which
external effects ran. -/
structure SetupOutcome where
  result : SetupResult
  state : FsState
  venvCreateRun : Bool
  installRun : Bool
  markerWritten : Bool
deriving DecidableEq, Repr

/-- Source: `setupKernel` from `src/venv/venvManager.ts`:
1. fail if the kernel directory is absent;
2. unless `force`, short-circuit with "Already up to date" when the venv is
   valid and `checkFreshness` reports up to date;
3. recreate the venv when it is invalid or `force` (removing any existing
   venv tree first — which also removes the marker file inside it);
4. snapshot the requirements digest BEFORE installing;
5. run `pip install -r` (skipped successfully when the requirements file is
   absent);
6. on success write the snapshot digest to the marker (only when non-empty);
   on any failure return without writing a marker. -/
def setupKernel (hash : String → String) (kernelName : String)
    (force createOk installOk : Bool) (s : FsState) : SetupOutcome :=
  if !s.kernelDirExists then
    ⟨⟨false, kernelName, "Kernel directory not found"⟩, s, false, false, false⟩
  else if !force && s.venvValid &&
      (checkFreshness hash s.markerRaw s.reqContent).upToDate then
    ⟨⟨true, kernelName, "Already up to date"⟩, s, false, false, false⟩
  else
    let needsRecreation := !s.venvValid || force
    -- removal of an existing venv tree (tolerating absence), then creation
    let s1 := if needsRecreation && s.venvDirExists then
        { s with venvDirExists := false, venvValid := false, markerRaw := none }
      else s
    if needsRecreation && !createOk then
      ⟨⟨false, kernelName, "Failed to create virtual environment"⟩, s1,
        true, false, false⟩
    else
      let s2 := if needsRecreation then
          { s1 with venvDirExists := true, venvValid := true }
        else s1
      -- hash snapshot before installation (computeFileHash throws on a
      -- missing file; the catch leaves the snapshot empty)
      let requirementsHash := match s.reqContent with
        | some c => hash c
        | none => ""
      match s.reqContent with
      | none =>
        -- installRequirements: no requirements file — skip, successfully;
        -- the marker is written only when the snapshot is non-empty
        ⟨⟨true, kernelName, "Setup complete"⟩, s2, needsRecreation, false, false⟩
      | some _ =>
        if !installOk then
          ⟨⟨false, kernelName, "Failed to install packages"⟩, s2,
            needsRecreation, true, false⟩
        else
          let s3 := if requirementsHash == "" then s2
            else { s2 with markerRaw := some requirementsHash }
          ⟨⟨true, kernelName, "Setup complete"⟩, s3, needsRecreation, true,
            !(requirementsHash == "")⟩

/-- Number of `pip install -r` invocations a run performs (0 or 1). -/
def installCount (o : SetupOutcome) : Nat := if o.installRun then 1 else 0

/-! ## MirrorSelector (`src/venv/mirrorDetector.ts`)

The module-level `cachedMirror` variable has three logical states:
`undefined` (not yet checked), `null` (checked, no mirror) and a mirror.
It is modelled as `Option (Option MirrorInfo)` — outer `none` = `undefined`.
The two GeoIP endpoints' network responses are a list of
`Option String` (`none` = the request failed / timed out). -/

structure MirrorInfo where
  url : String
  name : String
deriving DecidableEq, Repr

structure MirrorRule where
  name : String
  url : String
  countries : List String
deriving DecidableEq, Repr

def TSINGHUA_PYPI : String := "https://pypi.tuna.tsinghua.edu.cn/simple"

/-- The `MIRROR_RULES` table from `src/venv/mirrorDetector.ts`. -/
def MIRROR_RULES : List MirrorRule :=
  [⟨"Tsinghua (CN)", TSINGHUA_PYPI, ["CN"]⟩,
   ⟨"NUS (SE Asia)", "https://mirror.nus.edu.sg/pypi/simple",
     ["SG", "MY", "ID", "PH", "VN", "TH", "KH", "LA", "MM", "BN"]⟩,
   ⟨"Fau (EU)", "https://ftp.fau.de/python/pypi/simple",
     ["DE", "FR", "NL", "BE", "CH", "AT", "PL", "CZ", "HU", "IT",
      "ES", "PT", "SE", "NO", "DK", "FI", "GB", "UK", "IE"]⟩]

/-- JavaScript `s.toUpperCase()` on the character list (ASCII inputs). -/
def upperStr (s : String) : String := ⟨s.data.map Char.toUpper⟩

/-- Source: `resolveMirrorForCountry`: falsy country code (null or empty) gives no
mirror; otherwise the first rule whose country set contains the code. -/
def resolveMirrorForCountry (countryCode : Option String) : Option MirrorInfo :=
  match countryCode with
  | none => none
  | some code =>
    if code = "" then none
    else (MIRROR_RULES.find? (fun r => r.countries.contains code)).map
      (fun r => ⟨r.url, r.name⟩)

/-- Source: `detectCountryCode`: try each endpoint response in order, accepting the
first whose trimmed upper-cased body has exactly two characters; a failed
request or an unusable body falls through to the next endpoint; all
exhausted gives null. -/
def detectCountryCode : List (Option String) → Option String
  | [] => none
  | r :: rest =>
    match r with
    | none => detectCountryCode rest
    | some body =>
      let trimmed := upperStr (trimStr body)
      if trimmed.length == 2 then some trimmed else detectCountryCode rest

/-- Source: `getPreferredMirror`: (1) a non-empty, non-"auto" setting is returned
verbatim as a "User setting" mirror (without touching the cache); (2) an
already-populated session cache is returned as-is; (3) otherwise one GeoIP
resolution runs and its value — including null — is stored in the cache.
Returns the resolved mirror together with the cache afterwards. -/
def getPreferredMirror (setting : String) (responses : List (Option String))
    (cache : Option (Option MirrorInfo)) :
    Option MirrorInfo × Option (Option MirrorInfo) :=
  if setting ≠ "" ∧ setting ≠ "auto" then
    (some ⟨setting, "User setting"⟩, cache)
  else
    match cache with
    | some v => (v, cache)
    | none =>
      let v := resolveMirrorForCountry (detectCountryCode responses)
      (v, some v)

/-- Source: `clearMirrorCache`: reset the session cache to "not yet checked". -/
def clearMirrorCache (_cache : Option (Option MirrorInfo)) :
    Option (Option MirrorInfo) := none

/-- Source: `getMirrorArgs`: pip index-override arguments derived from the mirror. -/
def getMirrorArgs (setting : String) (responses : List (Option String))
    (cache : Option (Option MirrorInfo)) :
    List String × Option (Option MirrorInfo) :=
  match getPreferredMirror setting responses cache with
  | (some m, c) => (["-i", m.url], c)
  | (none, c) => ([], c)

/-! ## ConfigStore data model (`src/config/kernelConfig.ts`) -/

/-- Source: `KernelVariant` from `src/config/kernelConfig.ts`. -/
structure KernelVariant where
  display_name : Option String
  requirements_file : String
deriving DecidableEq, Repr

/-- Source: `KernelDefinition` from `src/config/kernelConfig.ts`; the object-valued
fields are association lists. -/
structure KernelDefinition where
  display_name : String
  description : Option String := none
  requirements_file : Option String := none
  python_version : Option String := none
  env : List (String × String) := []
  variants : List (String × KernelVariant) := []
deriving DecidableEq, Repr

/-! ## RegistrationManager (`src/kernels/kernelRegistrar.ts`)

State: the set of kernelspec directory names under the shared Jupyter data
directory (`sharedSpecs`) and under the Windows project-local location
(`localSpecs`). Environmental conditions are explicit parameters:
`workspaceOpen` (a workspace folder is open, so `resolveKernelsDir`
succeeds), `venvValid` (`isVenvValid` for this kernel's venv), `isWin`,
`writeOk` (the mkdir+write of the shared spec succeeds; `writeErr` is the
error text otherwise) and `localOk` (the project-local copy — direct write,
or robocopy for sandboxed Windows Store Python — succeeds; its failure is
only a logged warning). -/

structure RegistrationResult where
  success : Bool
  kernelName : String
  specName : String
  message : String
deriving DecidableEq, Repr

structure RegState where
  sharedSpecs : List String
  localSpecs : List String
deriving DecidableEq, Repr

structure RegOutcome where
  result : RegistrationResult
  state : RegState
  wroteSpec : Bool
deriving DecidableEq, Repr

/-- Source: `getKernelSpecName` from `src/kernels/kernelRegistrar.ts`:
`{prefix}-{kernelName}` or `{prefix}-{kernelName}-{variant}`; `pre` is the
configured kernel name prefix (default "py-learn"). -/
def getKernelSpecName (pre kernelName : String) (variant : Option String) :
    String :=
  match variant with
  | some v => pre ++ "-" ++ kernelName ++ "-" ++ v
  | none => pre ++ "-" ++ kernelName

/-- Display-name resolution in `registerKernel`: a variant's `display_name`
overrides the base one only when the variant exists on the definition and
its `display_name` is truthy (present and non-empty). -/
def resolveDisplayName (defn : KernelDefinition) (variant : Option String) :
    String :=
  match variant with
  | none => defn.display_name
  | some v =>
    match (defn.variants.find? (fun p => p.1 == v)).map Prod.snd with
    | some kv =>
      match kv.display_name with
      | some d => if d == "" then defn.display_name else d
      | none => defn.display_name
    | none => defn.display_name

/-- The `kernel.json` spec content built by `buildKernelSpec`:
`argv = [venv python, -m, ipykernel_launcher, -f, {connection_file}]`,
fixed language "python", debugger metadata, and the env map omitted
entirely when empty. -/
structure KernelSpec where
  argv : List String
  display_name : String
  language : String
  hasDebugger : Bool
  env : Option (List (String × String))
deriving DecidableEq, Repr

def buildKernelSpec (pythonPath displayName : String)
    (env : List (String × String)) : KernelSpec :=
  ⟨[pythonPath, "-m", "ipykernel_launcher", "-f", "\x7bconnection_file\x7d"],
    displayName, "python", true,
    if env.isEmpty then none else some env⟩

/-- Source: `registerKernel` from `src/kernels/kernelRegistrar.ts`: fail without a
workspace; fail with "run Setup Kernel first" when the venv is invalid
(no filesystem mutation in either case); otherwise write the spec directory
named `getKernelSpecName` under the shared root (failure aborts with a
failure result), and on Windows additionally copy it to the project-local
location (failure there is only a warning). -/
def registerKernel (pre kernelName : String) (defn : KernelDefinition)
    (variant : Option String)
    (workspaceOpen venvValid isWin writeOk localOk : Bool) (writeErr : String)
    (s : RegState) : RegOutcome :=
  let specName := getKernelSpecName pre kernelName variant
  if !workspaceOpen then
    ⟨⟨false, kernelName, specName, "No workspace folder open"⟩, s, false⟩
  else if !venvValid then
    ⟨⟨false, kernelName, specName,
        "Venv not found — run \"Setup Kernel\" first"⟩, s, false⟩
  else if !writeOk then
    ⟨⟨false, kernelName, specName, "Failed to write spec: " ++ writeErr⟩,
      s, false⟩
  else
    let s1 := { s with sharedSpecs := specName :: s.sharedSpecs }
    let s2 := if isWin && localOk then
        { s1 with localSpecs := specName :: s1.localSpecs }
      else s1
    ⟨⟨true, kernelName, specName, "Registered"⟩, s2, true⟩

/-- Source: `registerAllKernels` from `src/kernels/kernelRegistrar.ts`: iterate the
config entries sequentially, checking cancellation before each item
(`cancel i` — true when the token is cancelled before item `i`; a cancelled
iteration pushes a single "Cancelled" result and stops), and registering
each kernel WITHOUT a variant. Per-kernel environmental conditions come
from the `venvOf`/`writeOkOf`/`localOkOf`/`writeErrOf` oracles. -/
def registerAllKernels (pre : String)
    (kernels : List (String × KernelDefinition)) (cancel : Nat → Bool)
    (workspaceOpen isWin : Bool) (venvOf writeOkOf localOkOf : String → Bool)
    (writeErrOf : String → String) (i : Nat) (s : RegState) :
    List RegistrationResult × RegState :=
  match kernels with
  | [] => ([], s)
  | (name, defn) :: rest =>
    if cancel i then ([⟨false, name, "", "Cancelled"⟩], s)
    else
      let o := registerKernel pre name defn none workspaceOpen (venvOf name)
        isWin (writeOkOf name) (localOkOf name) (writeErrOf name) s
      let pr := registerAllKernels pre rest cancel workspaceOpen isWin
        venvOf writeOkOf localOkOf writeErrOf (i + 1) o.state
      (o.result :: pr.1, pr.2)

/-! ## ConfigStore validation (`src/config/kernelConfig.ts`, `validateConfig`)

`validateConfig` runs on the result of `JSON.parse`, modelled by `Json`.
JavaScript semantics used by the checks: `typeof x === 'object'` holds for
objects, arrays AND null; plain objects and arrays are always truthy while
`null`, `false`, `0` and `""` are falsy; a missing property is `undefined`
(here: `getField` returns `none`), which is distinct from a present `null`.
The checks only read named (non-index) properties, which are `undefined` on
arrays, and `Object.entries` over an array yields index-keyed entries. -/

inductive Json where
  | null
  | bool (b : Bool)
  | num (n : Int)
  | str (s : String)
  | arr (elems : List Json)
  | obj (fields : List (String × Json))

/-- Source: `typeof x === 'object' && x !== null`: a plain object or an array. -/
def Json.isObjectNonNull : Json → Bool
  | .arr _ => true
  | .obj _ => true
  | _ => false

/-- JavaScript truthiness of a parsed JSON value. -/
def Json.truthy : Json → Bool
  | .null => false
  | .bool b => b
  | .num n => !(n == 0)
  | .str s => !(s == "")
  | .arr _ => true
  | .obj _ => true

/-- Source: `typeof x === 'object'` (true also for null). -/
def Json.typeofObject : Json → Bool
  | .null => true
  | .arr _ => true
  | .obj _ => true
  | _ => false

/-- Source: `typeof x === 'string'`. -/
def Json.isStr : Json → Bool
  | .str _ => true
  | _ => false

/-- Named property access; the validator only reads non-index keys, which on
arrays and primitives are `undefined`. -/
def Json.getField : Json → String → Option Json
  | .obj fields, key => (fields.find? (fun p => p.1 == key)).map Prod.snd
  | _, _ => none

/-- Source: `Object.entries`: an object's fields in order; an array's elements with
their stringified indices; nothing for primitives. -/
def Json.entries : Json → List (String × Json)
  | .obj fields => fields
  | .arr elems => elems.enum.map (fun p => (toString p.1, p.2))
  | _ => []

/-- First error among a list of sequential check outcomes. -/
def firstSome : List (Option String) → Option String
  | [] => none
  | none :: rest => firstSome rest
  | some m :: _ => some m

/-- Source: `if (x !== undefined && typeof x !== 'string') return msg` — the check
applied to the optional `description`, `requirements_file` and
`python_version` fields. -/
def checkOptStr (k : Json) (field msg : String) : Option String :=
  match k.getField field with
  | none => none
  | some v => if v.isStr then none else some msg

/-- The inner variants loop of `validateConfig`: each variant must be a
non-null object with a non-empty string `requirements_file`. -/
def validateVariantList (kname : String) :
    List (String × Json) → Option String
  | [] => none
  | (vn, v) :: rest =>
    if !v.isObjectNonNull then
      some ("Kernel \"" ++ kname ++ "\", variant \"" ++ vn ++
        "\" must be an object")
    else
      match v.getField "requirements_file" with
      | some (.str s) =>
        if s == "" then
          some ("Kernel \"" ++ kname ++ "\", variant \"" ++ vn ++
            "\" must have a \"requirements_file\" string")
        else validateVariantList kname rest
      | _ =>
        some ("Kernel \"" ++ kname ++ "\", variant \"" ++ vn ++
          "\" must have a \"requirements_file\" string")

/-- Source: `typeof kernelObj.display_name !== 'string' || !kernelObj.display_name`:
`display_name` must be a present, non-empty string. -/
def checkDisplayName (name : String) (k : Json) : Option String :=
  match k.getField "display_name" with
  | some (.str s) =>
    if s == "" then
      some ("Kernel \"" ++ name ++
        "\" must have a non-empty \"display_name\" string")
    else none
  | _ =>
    some ("Kernel \"" ++ name ++
      "\" must have a non-empty \"display_name\" string")

/-- Source: `env`, if present, must be a non-null object. -/
def checkEnv (name : String) (k : Json) : Option String :=
  match k.getField "env" with
  | none => none
  | some e =>
    if e.isObjectNonNull then none
    else some ("Kernel \"" ++ name ++ "\": \"env\" must be an object")

/-- Source: `variants`, if present, must be a non-null object whose entries all pass
the variant checks. -/
def checkVariants (name : String) (k : Json) : Option String :=
  match k.getField "variants" with
  | none => none
  | some v =>
    if !v.isObjectNonNull then
      some ("Kernel \"" ++ name ++ "\": \"variants\" must be an object")
    else validateVariantList name v.entries

/-- The per-kernel body of `validateConfig`'s loop, checks in source order:
object shape, non-empty string `display_name`, optional string fields,
optional `env` object, optional `variants` object with valid variants. -/
def validateKernel (name : String) (k : Json) : Option String :=
  if !k.isObjectNonNull then
    some ("Kernel \"" ++ name ++ "\" must be an object")
  else
    firstSome
      [checkDisplayName name k,
       checkOptStr k "description"
         ("Kernel \"" ++ name ++ "\": \"description\" must be a string"),
       checkOptStr k "requirements_file"
         ("Kernel \"" ++ name ++ "\": \"requirements_file\" must be a string"),
       checkOptStr k "python_version"
         ("Kernel \"" ++ name ++ "\": \"python_version\" must be a string"),
       checkEnv name k,
       checkVariants name k]

/-- The kernels loop: kernels are validated in entry order; the first
violation wins. -/
def validateKernelList : List (String × Json) → Option String
  | [] => none
  | (name, k) :: rest =>
    match validateKernel name k with
    | some m => some m
    | none => validateKernelList rest

/-- Source: `validateConfig` from `src/config/kernelConfig.ts`: `null` when the
parsed value is valid, otherwise the message naming the first offending
field in check order. -/
def validateConfig (j : Json) : Option String :=
  if !j.isObjectNonNull then some "Config must be a JSON object"
  else
    match j.getField "kernels" with
    | none => some "Config must contain a \"kernels\" object"
    | some k =>
      if !(k.truthy && k.typeofObject) then
        some "Config must contain a \"kernels\" object"
      else validateKernelList k.entries

/-! Validity as a predicate, phrased field-by-field as the spec lists the
checks, for the soundness/completeness statement of claim C9. -/

def ValidVariant (v : Json) : Prop :=
  v.isObjectNonNull = true ∧
  ∃ s, v.getField "requirements_file" = some (.str s) ∧ s ≠ ""

def OptStrOk (k : Json) (field : String) : Prop :=
  ∀ d, k.getField field = some d → d.isStr = true

def ValidKernel (k : Json) : Prop :=
  k.isObjectNonNull = true ∧
  (∃ s, k.getField "display_name" = some (.str s) ∧ s ≠ "") ∧
  OptStrOk k "description" ∧
  OptStrOk k "requirements_file" ∧
  OptStrOk k "python_version" ∧
  (∀ e, k.getField "env" = some e → e.isObjectNonNull = true) ∧
  (∀ v, k.getField "variants" = some v →
    v.isObjectNonNull = true ∧ ∀ p ∈ v.entries, ValidVariant p.2)

def ValidConfig (j : Json) : Prop :=
  j.isObjectNonNull = true ∧
  ∃ k, j.getField "kernels" = some k ∧ (k.truthy && k.typeofObject) = true ∧
    ∀ p ∈ k.entries, ValidKernel p.2

/-! ## Theorems -/

/-! ### Lemmas about the stable descending sort -/

theorem mem_insertByLen {x a : String} {l : List String} :
    x ∈ insertByLen a l ↔ x = a ∨ x ∈ l := by
  induction l with
  | nil => simp [insertByLen]
  | cons b t ih =>
    by_cases h : b.length ≤ a.length
    · simp [insertByLen, h]
    · simp only [insertByLen, if_neg h, List.mem_cons, ih]
      tauto

theorem mem_sortByLenDesc {x : String} {l : List String} :
    x ∈ sortByLenDesc l ↔ x ∈ l := by
  induction l with
  | nil => simp [sortByLenDesc]
  | cons a t ih =>
    simp only [sortByLenDesc, mem_insertByLen, List.mem_cons, ih]

theorem pairwise_insertByLen {a : String} {l : List String}
    (h : l.Pairwise (fun x y => y.length ≤ x.length)) :
    (insertByLen a l).Pairwise (fun x y => y.length ≤ x.length) := by
  induction l with
  | nil => simp [insertByLen]
  | cons b t ih =>
    rcases List.pairwise_cons.mp h with ⟨hb, ht⟩
    by_cases hba : b.length ≤ a.length
    · rw [insertByLen, if_pos hba]
      refine List.pairwise_cons.mpr ⟨?_, h⟩
      intro y hy
      rcases List.mem_cons.mp hy with rfl | hyt
      · exact hba
      · exact le_trans (hb y hyt) hba
    · rw [insertByLen, if_neg hba]
      refine List.pairwise_cons.mpr ⟨?_, ih ht⟩
      intro y hy
      rcases mem_insertByLen.mp hy with rfl | hyt
      · exact le_of_lt (Nat.lt_of_not_le hba)
      · exact hb y hyt

theorem pairwise_sortByLenDesc (l : List String) :
    (sortByLenDesc l).Pairwise (fun x y => y.length ≤ x.length) := by
  induction l with
  | nil => simp [sortByLenDesc]
  | cons a t ih => exact pairwise_insertByLen ih

theorem filter_len_insertByLen (a : String) (l : List String) (n : Nat) :
    (insertByLen a l).filter (fun x => x.length == n) =
      if a.length == n then a :: l.filter (fun x => x.length == n)
      else l.filter (fun x => x.length == n) := by
  induction l with
  | nil =>
    by_cases h : a.length == n <;> simp [insertByLen, List.filter, h]
  | cons b t ih =>
    by_cases hba : b.length ≤ a.length
    · by_cases ha : a.length == n <;> simp [insertByLen, hba, List.filter, ha]
    · have hbn : a.length == n → (b.length == n) = false := by
        intro han
        have : a.length = n := beq_iff_eq.mp han
        have hlt : a.length < b.length := Nat.lt_of_not_le hba
        simp only [beq_eq_false_iff_ne, ne_eq]
        omega
      by_cases ha : a.length == n
      · have hb' := hbn ha
        simp [insertByLen, if_neg hba, List.filter_cons, hb', ih, ha]
      · simp only [insertByLen, if_neg hba, List.filter_cons, ih, if_neg ha]

theorem filter_len_sortByLenDesc (l : List String) (n : Nat) :
    (sortByLenDesc l).filter (fun x => x.length == n) =
      l.filter (fun x => x.length == n) := by
  induction l with
  | nil => simp [sortByLenDesc]
  | cons a t ih =>
    rw [sortByLenDesc, filter_len_insertByLen, List.filter_cons]
    by_cases ha : a.length == n <;> simp [ha, ih]

theorem find?_eq_head?_filter (p : String → Bool) (l : List String) :
    l.find? p = (l.filter p).head? := by
  induction l with
  | nil => simp
  | cons a t ih =>
    by_cases ha : p a
    · simp [List.find?_cons, ha, List.filter_cons]
    · simp only [List.find?_cons, ha, List.filter_cons]
      simpa [ha] using ih

/-- On a list sorted by descending length, `find?` returns an element whose
length is maximal among all elements satisfying the predicate. -/
theorem find?_sorted_max {p : String → Bool} {S : List String} {r : String}
    (hsort : S.Pairwise (fun x y => y.length ≤ x.length))
    (hfind : S.find? p = some r) :
    ∀ x ∈ S, p x = true → x.length ≤ r.length := by
  induction S with
  | nil => simp at hfind
  | cons a t ih =>
    rcases List.pairwise_cons.mp hsort with ⟨ha, ht⟩
    by_cases hpa : p a
    · rw [List.find?_cons_of_pos _ hpa] at hfind
      cases hfind
      intro x hx hpx
      rcases List.mem_cons.mp hx with rfl | hxt
      · exact le_refl _
      · exact ha x hxt
    · rw [List.find?_cons_of_neg _ hpa] at hfind
      intro x hx hpx
      rcases List.mem_cons.mp hx with rfl | hxt
      · exact absurd hpx (by simpa using hpa)
      · exact ih ht hfind x hxt hpx

/-- On a list sorted by descending length, `find?` agrees with `find?` over
the sublist of elements of the maximal matching length `L`: stability of the
sort makes the first maximal-length matcher of the original order win. -/
theorem find?_sorted_stable {p : String → Bool} {S : List String} {L : Nat}
    {m : String}
    (hsort : S.Pairwise (fun x y => y.length ≤ x.length))
    (hmax : ∀ x ∈ S, p x = true → x.length ≤ L)
    (hF : (S.filter (fun x => x.length == L)).find? p = some m)
    (hm : m.length = L) :
    S.find? p = some m := by
  induction S with
  | nil => simp at hF
  | cons a t ih =>
    rcases List.pairwise_cons.mp hsort with ⟨ha, ht⟩
    by_cases hpa : p a
    · have haL : a.length ≤ L := hmax a (List.mem_cons_self a t) hpa
      rcases Nat.lt_or_ge a.length L with hlt | hge
      · -- `a` matches but is shorter than `L`: everything after it is even
        -- shorter, so no element of length `L` exists — contradiction.
        exfalso
        have : (a :: t).filter (fun x => x.length == L) = [] := by
          rw [List.filter_eq_nil]
          intro x hx
          rcases List.mem_cons.mp hx with rfl | hxt
          · simp [Nat.ne_of_lt hlt]
          · have := ha x hxt
            have : x.length < L := lt_of_le_of_lt this hlt
            simp [Nat.ne_of_lt this]
        rw [this] at hF
        simp at hF
      · have haL' : a.length = L := le_antisymm haL hge
        have : (a :: t).filter (fun x => x.length == L) =
            a :: t.filter (fun x => x.length == L) := by
          rw [List.filter_cons]
          simp [haL']
        rw [this, List.find?_cons_of_pos _ hpa] at hF
        cases hF
        rw [List.find?_cons_of_pos _ hpa]
    · rw [List.find?_cons_of_neg _ hpa]
      by_cases haL : a.length = L
      · have : (a :: t).filter (fun x => x.length == L) =
            a :: t.filter (fun x => x.length == L) := by
          rw [List.filter_cons]; simp [haL]
        rw [this, List.find?_cons_of_neg _ hpa] at hF
        exact ih ht (fun x hx hpx => hmax x (List.mem_cons_of_mem _ hx) hpx) hF
      · have : (a :: t).filter (fun x => x.length == L) =
            t.filter (fun x => x.length == L) := by
          rw [List.filter_cons]; simp [haL]
        rw [this] at hF
        exact ih ht (fun x hx hpx => hmax x (List.mem_cons_of_mem _ hx) hpx) hF

/-! ### Claims C4, C5, C6 -/

/-- C4 (amended): when no candidate name matches the path as a substring,
`resolveKernelForNotebook` falls back to a candidate literally named
`"default"`, then one named `"common"`, then the first candidate in
iteration order; an empty candidate list yields no result. -/
theorem resolveKernelForNotebook_fallback (path : String) (names : List String)
    (hnone : ∀ n ∈ names, nameMatches (normalizePath path) n = false) :
    resolveKernelForNotebook path names =
      if "default" ∈ names then some "default"
      else if "common" ∈ names then some "common"
      else names.head? := by
  have hfind : (sortByLenDesc names).find? (fun n => nameMatches (normalizePath path) n)
      = none := by
    rw [List.find?_eq_none]
    intro x hx
    simp [hnone x (mem_sortByLenDesc.mp hx)]
  simp only [resolveKernelForNotebook, hfind]
  by_cases hd : "default" ∈ names
  · simp [List.find?_cons, hd]
  · by_cases hc : "common" ∈ names <;>
      simp [List.find?_cons, hd, hc]

/-- C4 (counterexample to the claim as stated): with candidates
`["common", "default"]` and a path matching neither, the code returns
`"default"`, not `"common"` — the fallback order in the code is
`['default', 'common']`. -/
theorem resolveKernelForNotebook_fallback_cex :
    (∀ n ∈ (["common", "default"] : List String),
        nameMatches (normalizePath "x.ipynb") n = false) ∧
    resolveKernelForNotebook "x.ipynb" ["common", "default"] = some "default" ∧
    resolveKernelForNotebook "x.ipynb" ["common", "default"] ≠ some "common" := by
  decide

/-- C4 witness: the amended fallback applies at a concrete input. -/
theorem resolveKernelForNotebook_fallback_witness :
    resolveKernelForNotebook "x.ipynb" ["alpha", "common"] =
      if "default" ∈ (["alpha", "common"] : List String) then some "default"
      else if "common" ∈ (["alpha", "common"] : List String) then some "common"
      else (["alpha", "common"] : List String).head? :=
  resolveKernelForNotebook_fallback "x.ipynb" ["alpha", "common"] (by decide)

/-- C6: a matching candidate of maximal length wins (candidates are scanned
in descending length order), and in particular
`resolveKernelForNotebook "pytorch_study/random_experiment.ipynb"
["random", "pytorch_study"] = "pytorch_study"`. -/
theorem resolveKernelForNotebook_longest (path : String) (names : List String)
    (x : String) (hx : x ∈ names)
    (hmx : nameMatches (normalizePath path) x = true) :
    (∃ r, resolveKernelForNotebook path names = some r ∧ r ∈ names ∧
        nameMatches (normalizePath path) r = true ∧
        ∀ y ∈ names, nameMatches (normalizePath path) y = true →
          y.length ≤ r.length) ∧
    resolveKernelForNotebook "pytorch_study/random_experiment.ipynb"
        ["random", "pytorch_study"] = some "pytorch_study" := by
  constructor
  · have hxs : x ∈ sortByLenDesc names := mem_sortByLenDesc.mpr hx
    have hsome : ((sortByLenDesc names).find?
        (fun n => nameMatches (normalizePath path) n)).isSome := by
      rw [List.find?_isSome]
      exact ⟨x, hxs, hmx⟩
    obtain ⟨r, hr⟩ := Option.isSome_iff_exists.mp hsome
    refine ⟨r, ?_, ?_, ?_, ?_⟩
    · simp only [resolveKernelForNotebook, hr]
    · exact mem_sortByLenDesc.mp (List.mem_of_find?_eq_some hr)
    · exact List.find?_some hr
    · intro y hy hmy
      exact find?_sorted_max (pairwise_sortByLenDesc names) hr y
        (mem_sortByLenDesc.mpr hy) hmy
  · decide

/-- C6 witness: the spec's worked example, obtained from the theorem. -/
theorem resolveKernelForNotebook_longest_witness :
    resolveKernelForNotebook "pytorch_study/random_experiment.ipynb"
        ["random", "pytorch_study"] = some "pytorch_study" :=
  (resolveKernelForNotebook_longest "pytorch_study/random_experiment.ipynb"
    ["random", "pytorch_study"] "pytorch_study" (by decide) (by decide)).2

/-- C5 (amended): among matching candidates of maximal length, the FIRST in
input order wins — the JavaScript sort is stable, so equal-length names keep
their input order and the scan returns the earliest match. `hfirst` states
that `m` is the first matcher among the candidates of its length, in input
order. -/
theorem resolveKernelForNotebook_stable_tie (path : String) (names : List String)
    (m : String)
    (hmax : ∀ y ∈ names, nameMatches (normalizePath path) y = true →
      y.length ≤ m.length)
    (hfirst : (names.filter (fun y => y.length == m.length)).find?
        (fun y => nameMatches (normalizePath path) y) = some m) :
    resolveKernelForNotebook path names = some m := by
  have hF : ((sortByLenDesc names).filter (fun y => y.length == m.length)).find?
      (fun y => nameMatches (normalizePath path) y) = some m := by
    rw [filter_len_sortByLenDesc]
    exact hfirst
  have hfind : (sortByLenDesc names).find?
      (fun n => nameMatches (normalizePath path) n) = some m :=
    find?_sorted_stable (pairwise_sortByLenDesc names)
      (fun y hy hmy => hmax y (mem_sortByLenDesc.mp hy) hmy) hF rfl
  simp only [resolveKernelForNotebook, hfind]

/-- C5 (counterexample to the claim as stated): `"ab"` and `"ba"` have equal
length and both occur in `"abba/x.ipynb"`; the code returns the FIRST of the
two in input order, not the last. -/
theorem resolveKernelForNotebook_stable_tie_cex :
    nameMatches (normalizePath "abba/x.ipynb") "ab" = true ∧
    nameMatches (normalizePath "abba/x.ipynb") "ba" = true ∧
    ("ab" : String).length = ("ba" : String).length ∧
    (∀ y ∈ (["ab", "ba"] : List String),
        nameMatches (normalizePath "abba/x.ipynb") y = true → y.length ≤ 2) ∧
    resolveKernelForNotebook "abba/x.ipynb" ["ab", "ba"] = some "ab" ∧
    resolveKernelForNotebook "abba/x.ipynb" ["ab", "ba"] ≠ some "ba" := by
  decide

/-- C5 witness: the amended tie-break applies at a concrete input. -/
theorem resolveKernelForNotebook_stable_tie_witness :
    resolveKernelForNotebook "ccdd/x.ipynb" ["cc", "dd"] = some "cc" :=
  resolveKernelForNotebook_stable_tie "ccdd/x.ipynb" ["cc", "dd"] "cc"
    (by decide) (by decide)

/-! ### Claims C1, C2, C3 -/

/-- C3: `checkFreshness` reports up-to-date iff a stored marker exists and
equals the digest of the current specifier file; a missing specifier file
yields up-to-date with an empty digest and a null stored hash. -/
theorem checkFreshness_spec (hash : String → String)
    (markerRaw reqContent : Option String) :
    (∀ c, reqContent = some c →
      ((checkFreshness hash markerRaw reqContent).upToDate = true ↔
        readStoredHash markerRaw ≠ none ∧
          readStoredHash markerRaw = some (hash c))) ∧
    (reqContent = none →
      (checkFreshness hash markerRaw reqContent).upToDate = true ∧
      (checkFreshness hash markerRaw reqContent).currentHash = "" ∧
      (checkFreshness hash markerRaw reqContent).storedHash = none) := by
  constructor
  · rintro c rfl
    cases markerRaw with
    | none => simp [checkFreshness, readStoredHash]
    | some m =>
      simp only [checkFreshness, readStoredHash, Option.map_some']
      constructor
      · intro h
        exact ⟨by simp, by simpa using beq_iff_eq.mp h⟩
      · rintro ⟨-, h⟩
        simp only [Option.some.injEq] at h
        simp [h]
  · rintro rfl
    simp [checkFreshness]

/-- C3 witness: a missing specifier file at a concrete input. -/
theorem checkFreshness_spec_witness :
    (checkFreshness (fun _ => "h") (some "old") none).upToDate = true ∧
    (checkFreshness (fun _ => "h") (some "old") none).currentHash = "" ∧
    (checkFreshness (fun _ => "h") (some "old") none).storedHash = none :=
  (checkFreshness_spec (fun _ => "h") (some "old") none).2 rfl

/-- The short-circuit branch of `setupKernel`: with `force = false`, a valid
venv and a fresh marker, nothing runs and nothing changes. -/
theorem setupKernel_fresh_shortCircuit (hash : String → String) (kn : String)
    (c i : Bool) (s : FsState)
    (hkd : s.kernelDirExists = true) (hvv : s.venvValid = true)
    (hfresh : (checkFreshness hash s.markerRaw s.reqContent).upToDate = true) :
    setupKernel hash kn false c i s =
      ⟨⟨true, kn, "Already up to date"⟩, s, false, false, false⟩ := by
  simp [setupKernel, hkd, hvv, hfresh]

/-- After any successful `setupKernel` run with `force = false`, the
resulting state has the kernel directory, a valid venv, and is fresh.
The two digest hypotheses hold of MD5 hex digests: they are non-empty and
carry no surrounding whitespace. -/
theorem setupKernel_success_state (hash : String → String)
    (hne : ∀ t, hash t ≠ "") (htr : ∀ t, trimStr (hash t) = hash t)
    (kn : String) (c i : Bool) (s : FsState)
    (h1 : (setupKernel hash kn false c i s).result.success = true) :
    (setupKernel hash kn false c i s).state.kernelDirExists = true ∧
    (setupKernel hash kn false c i s).state.venvValid = true ∧
    (checkFreshness hash (setupKernel hash kn false c i s).state.markerRaw
      (setupKernel hash kn false c i s).state.reqContent).upToDate = true := by
  obtain ⟨kd, vd, vv, mk, rq⟩ := s
  cases kd with
  | false => simp [setupKernel] at h1
  | true =>
    cases vv with
    | true =>
      by_cases hu : (checkFreshness hash mk rq).upToDate = true
      · rw [setupKernel_fresh_shortCircuit hash kn c i _ rfl rfl hu]
        exact ⟨rfl, rfl, hu⟩
      · cases rq with
        | none => simp [checkFreshness] at hu
        | some c' =>
          have hne' : (hash c' == "") = false :=
            beq_eq_false_iff_ne.mpr (hne c')
          have hu' := eq_false_of_ne_true hu
          cases i with
          | false =>
            simp [setupKernel, hu'] at h1
          | true =>
            simp only [setupKernel, hu']
            simp [hne', checkFreshness, readStoredHash, htr c']
    | false =>
      cases c with
      | false =>
        cases rq <;> simp [setupKernel, checkFreshness] at h1
      | true =>
        cases rq with
        | none => cases vd <;> simp [setupKernel, checkFreshness]
        | some c' =>
          have hne' : (hash c' == "") = false :=
            beq_eq_false_iff_ne.mpr (hne c')
          cases i with
          | false => cases vd <;> simp [setupKernel, checkFreshness] at h1
          | true =>
            cases vd <;>
              simp [setupKernel, checkFreshness, hne', readStoredHash, htr c']

/-- C1: `setupKernel` is idempotent. After any successful run with
`force = false` (over an unchanged dependency specifier — the run itself
never modifies `reqContent`), a second `force = false` call short-circuits:
it returns success "Already up to date", invokes no venv creation and no
install, writes nothing, and leaves the filesystem untouched; so the two
calls together install exactly as often as the first alone (exactly once
when the first call ran the installer). -/
theorem setupKernel_idempotent (hash : String → String)
    (hne : ∀ t, hash t ≠ "") (htr : ∀ t, trimStr (hash t) = hash t)
    (kn : String) (c1 i1 c2 i2 : Bool) (s : FsState)
    (h1 : (setupKernel hash kn false c1 i1 s).result.success = true) :
    setupKernel hash kn false c2 i2 (setupKernel hash kn false c1 i1 s).state =
      ⟨⟨true, kn, "Already up to date"⟩,
        (setupKernel hash kn false c1 i1 s).state, false, false, false⟩ ∧
    installCount (setupKernel hash kn false c1 i1 s) +
      installCount (setupKernel hash kn false c2 i2
        (setupKernel hash kn false c1 i1 s).state) =
      installCount (setupKernel hash kn false c1 i1 s) ∧
    ((setupKernel hash kn false c1 i1 s).installRun = true →
      installCount (setupKernel hash kn false c1 i1 s) +
        installCount (setupKernel hash kn false c2 i2
          (setupKernel hash kn false c1 i1 s).state) = 1) := by
  obtain ⟨hkd, hvv, hfr⟩ :=
    setupKernel_success_state hash hne htr kn c1 i1 s h1
  have h2 := setupKernel_fresh_shortCircuit hash kn c2 i2
    (setupKernel hash kn false c1 i1 s).state hkd hvv hfr
  refine ⟨h2, ?_, ?_⟩
  · rw [h2]; simp [installCount]
  · intro hrun
    rw [h2]; simp [installCount, hrun]

/-- C1 witness: a first run that creates the venv and installs, followed by
a short-circuiting second run. -/
theorem setupKernel_idempotent_witness :
    setupKernel (fun _ => "h") "k" false true true
        (setupKernel (fun _ => "h") "k" false true true
          ⟨true, false, false, none, some "x"⟩).state =
      ⟨⟨true, "k", "Already up to date"⟩,
        (setupKernel (fun _ => "h") "k" false true true
          ⟨true, false, false, none, some "x"⟩).state, false, false, false⟩ := by
  have h := setupKernel_idempotent (fun _ => "h")
    (fun t => by show ("h" : String) ≠ ""; decide)
    (fun t => by show trimStr "h" = "h"; decide) "k" true true true true
    ⟨true, false, false, none, some "x"⟩ (by decide)
  exact h.1

/-- C2 (amended): on any failing `setupKernel` run, no marker is written —
the marker file is never set to a new digest; it is either left with its
prior content, or deleted as part of removing the old venv tree during
recreation. On a successful run with message "Setup complete" over an
existing specifier, the marker written is the digest of the specifier
content snapshotted before installation started. -/
theorem setupKernel_marker (hash : String → String)
    (hne : ∀ t, hash t ≠ "")
    (kn : String) (force c i : Bool) (s : FsState) :
    ((setupKernel hash kn force c i s).result.success = false →
      (setupKernel hash kn force c i s).markerWritten = false ∧
      ((setupKernel hash kn force c i s).state.markerRaw = s.markerRaw ∨
        (setupKernel hash kn force c i s).state.markerRaw = none)) ∧
    (∀ rc, (setupKernel hash kn force c i s).result.success = true →
      (setupKernel hash kn force c i s).result.message = "Setup complete" →
      s.reqContent = some rc →
      (setupKernel hash kn force c i s).markerWritten = true ∧
      (setupKernel hash kn force c i s).state.markerRaw = some (hash rc)) := by
  obtain ⟨kd, vd, vv, mk, rq⟩ := s
  cases kd with
  | false => simp [setupKernel]
  | true =>
    by_cases hg : (!force && vv &&
        (checkFreshness hash mk rq).upToDate) = true
    · constructor
      · intro hfail
        simp only [setupKernel, Bool.not_true, Bool.false_eq_true,
          if_false, hg, if_true] at hfail ⊢
        simp [hg] at hfail ⊢
      · rintro rc hsucc hmsg rfl
        simp [setupKernel, hg] at hmsg
    · have hg' := eq_false_of_ne_true hg
      cases rq with
      | none =>
        constructor
        · intro hfail
          cases c <;> cases vd <;> cases vv <;> cases force <;>
            simp_all [setupKernel, checkFreshness]
        · rintro rc hsucc hmsg h
          exact absurd h (by simp)
      | some c' =>
        have hne' : (hash c' == "") = false :=
          beq_eq_false_iff_ne.mpr (hne c')
        constructor
        · intro hfail
          cases c <;> cases i <;> cases vd <;> cases vv <;> cases force <;>
            simp_all [setupKernel, checkFreshness, hne']
        · rintro rc hsucc hmsg h
          obtain rfl : c' = rc := by simpa using h
          cases c <;> cases i <;> cases vd <;> cases vv <;> cases force <;>
            simp_all [setupKernel, checkFreshness, hne']

/-- C2 (counterexample to the claim as stated): a broken venv (directory
present, interpreter missing) holding an old marker. Recreation removes the
venv tree — marker included — and then venv creation fails: the call returns
failure, no marker is written, but the marker file does NOT keep its prior
content; it is gone. -/
theorem setupKernel_marker_cex :
    (setupKernel (fun _ => "newh") "k" false false false
        ⟨true, true, false, some "oldhash", some "numpy"⟩).result.success
      = false ∧
    (setupKernel (fun _ => "newh") "k" false false false
        ⟨true, true, false, some "oldhash", some "numpy"⟩).markerWritten
      = false ∧
    (setupKernel (fun _ => "newh") "k" false false false
        ⟨true, true, false, some "oldhash", some "numpy"⟩).state.markerRaw
      = none ∧
    (⟨true, true, false, some "oldhash", some "numpy"⟩ : FsState).markerRaw
      = some "oldhash" := by
  decide

/-- C2 witness: a failing run keeps/clears but never writes the marker, and
a successful run writes the pre-install digest. -/
theorem setupKernel_marker_witness :
    (setupKernel (fun _ => "h") "k" true true true
        ⟨true, false, false, none, some "x"⟩).markerWritten = true ∧
    (setupKernel (fun _ => "h") "k" true true true
        ⟨true, false, false, none, some "x"⟩).state.markerRaw = some "h" :=
  (setupKernel_marker (fun _ => "h")
      (fun t => by show ("h" : String) ≠ ""; decide)
      "k" true true true ⟨true, false, false, none, some "x"⟩).2
    "x" (by decide) (by decide) rfl

/-! ### Claim C8 -/

/-- C8: with an unchanged mirror setting, two consecutive
`getPreferredMirror` calls return an identical value even when the
geolocation responses differ between the calls; a populated cache is never
changed by a call, and only `clearMirrorCache` resets it. -/
theorem getPreferredMirror_cached (setting : String)
    (r1 r2 : List (Option String)) (cache : Option (Option MirrorInfo)) :
    (getPreferredMirror setting r2
        (getPreferredMirror setting r1 cache).2).1 =
      (getPreferredMirror setting r1 cache).1 ∧
    (getPreferredMirror setting r2
        (getPreferredMirror setting r1 cache).2).2 =
      (getPreferredMirror setting r1 cache).2 ∧
    (∀ v, (getPreferredMirror setting r2 (some v)).2 = some v) ∧
    (∀ c, clearMirrorCache c = none) := by
  by_cases hs : setting ≠ "" ∧ setting ≠ "auto"
  · simp [getPreferredMirror, clearMirrorCache, hs]
  · cases cache with
    | some v => simp [getPreferredMirror, clearMirrorCache, hs]
    | none => simp [getPreferredMirror, clearMirrorCache, hs]

/-! ### Claims C7 and C10 -/

/-- C7: `registerKernel` on a kernel without a validly provisioned venv
(workspace open, `isVenvValid` false) fails telling the user to run setup
first, and performs no registration-directory mutation. -/
theorem registerKernel_requires_venv (pre kn : String)
    (defn : KernelDefinition) (variant : Option String)
    (isWin writeOk localOk : Bool) (writeErr : String) (s : RegState) :
    (registerKernel pre kn defn variant true false isWin writeOk localOk
        writeErr s).result.success = false ∧
    (registerKernel pre kn defn variant true false isWin writeOk localOk
        writeErr s).result.message =
      "Venv not found — run \"Setup Kernel\" first" ∧
    (registerKernel pre kn defn variant true false isWin writeOk localOk
        writeErr s).state = s ∧
    (registerKernel pre kn defn variant true false isWin writeOk localOk
        writeErr s).wroteSpec = false := by
  simp [registerKernel]

/-- Any spec-directory name `registerKernel` adds is the spec name of the
kernel/variant it was invoked for. -/
theorem registerKernel_writes (pre kn : String) (defn : KernelDefinition)
    (variant : Option String) (wo vv isWin writeOk localOk : Bool)
    (writeErr : String) (s : RegState) :
    (∀ n, n ∈ (registerKernel pre kn defn variant wo vv isWin writeOk localOk
        writeErr s).state.sharedSpecs →
      n ∈ s.sharedSpecs ∨ n = getKernelSpecName pre kn variant) ∧
    (∀ n, n ∈ (registerKernel pre kn defn variant wo vv isWin writeOk localOk
        writeErr s).state.localSpecs →
      n ∈ s.localSpecs ∨ n = getKernelSpecName pre kn variant) ∧
    (registerKernel pre kn defn variant wo vv isWin writeOk localOk
        writeErr s).result.specName = getKernelSpecName pre kn variant := by
  cases wo with
  | false => exact ⟨fun n hn => Or.inl hn, fun n hn => Or.inl hn, rfl⟩
  | true =>
    cases vv with
    | false => exact ⟨fun n hn => Or.inl hn, fun n hn => Or.inl hn, rfl⟩
    | true =>
      cases writeOk with
      | false => exact ⟨fun n hn => Or.inl hn, fun n hn => Or.inl hn, rfl⟩
      | true =>
        by_cases hw : (isWin && localOk) = true
        · refine ⟨?_, ?_, rfl⟩ <;> intro n hn
          · have hn' : n ∈ getKernelSpecName pre kn variant :: s.sharedSpecs := by
              simpa [registerKernel, hw] using hn
            rcases List.mem_cons.mp hn' with rfl | h
            · exact Or.inr rfl
            · exact Or.inl h
          · have hn' : n ∈ getKernelSpecName pre kn variant :: s.localSpecs := by
              simpa [registerKernel, hw] using hn
            rcases List.mem_cons.mp hn' with rfl | h
            · exact Or.inr rfl
            · exact Or.inl h
        · have hw' := eq_false_of_ne_true hw
          refine ⟨?_, ?_, rfl⟩ <;> intro n hn
          · have hn' : n ∈ getKernelSpecName pre kn variant :: s.sharedSpecs := by
              simpa [registerKernel, hw'] using hn
            rcases List.mem_cons.mp hn' with rfl | h
            · exact Or.inr rfl
            · exact Or.inl h
          · have hn' : n ∈ s.localSpecs := by
              simpa [registerKernel, hw'] using hn
            exact Or.inl hn'

/-- C10: `registerAllKernels` registers base kernel specs only: every result
names the variant-less spec `{prefix}-{kernelName}` of some configured
kernel (or is the empty-named "Cancelled" entry, which writes nothing), and
every spec-directory name added to the shared or project-local registration
location during the bulk run is `getKernelSpecName pre k none` for some
configured kernel `k` — never a `{prefix}-{kernelName}-{variant}` spec,
even for kernels whose definitions declare variants. -/
theorem registerAllKernels_base_only (pre : String)
    (kernels : List (String × KernelDefinition)) (cancel : Nat → Bool)
    (workspaceOpen isWin : Bool) (venvOf writeOkOf localOkOf : String → Bool)
    (writeErrOf : String → String) (i : Nat) (s : RegState) :
    (∀ n, n ∈ (registerAllKernels pre kernels cancel workspaceOpen isWin
        venvOf writeOkOf localOkOf writeErrOf i s).2.sharedSpecs →
      n ∈ s.sharedSpecs ∨ ∃ k, k ∈ kernels.map Prod.fst ∧
        n = getKernelSpecName pre k none) ∧
    (∀ n, n ∈ (registerAllKernels pre kernels cancel workspaceOpen isWin
        venvOf writeOkOf localOkOf writeErrOf i s).2.localSpecs →
      n ∈ s.localSpecs ∨ ∃ k, k ∈ kernels.map Prod.fst ∧
        n = getKernelSpecName pre k none) ∧
    (∀ r, r ∈ (registerAllKernels pre kernels cancel workspaceOpen isWin
        venvOf writeOkOf localOkOf writeErrOf i s).1 →
      r.specName = "" ∨ ∃ k, k ∈ kernels.map Prod.fst ∧
        r.specName = getKernelSpecName pre k none) := by
  induction kernels generalizing i s with
  | nil => simp [registerAllKernels]
  | cons hd rest ih =>
    obtain ⟨name, defn⟩ := hd
    by_cases hc : cancel i = true
    · refine ⟨?_, ?_, ?_⟩
      · intro n hn
        simp only [registerAllKernels, hc, if_true] at hn
        exact Or.inl hn
      · intro n hn
        simp only [registerAllKernels, hc, if_true] at hn
        exact Or.inl hn
      · intro r hr
        simp only [registerAllKernels, hc, if_true] at hr
        rcases List.mem_singleton.mp hr with rfl
        exact Or.inl rfl
    · have hc' := eq_false_of_ne_true hc
      have hreg := registerKernel_writes pre name defn none workspaceOpen
        (venvOf name) isWin (writeOkOf name) (localOkOf name)
        (writeErrOf name) s
      have hih := ih (i + 1)
        (registerKernel pre name defn none workspaceOpen (venvOf name) isWin
          (writeOkOf name) (localOkOf name) (writeErrOf name) s).state
      refine ⟨?_, ?_, ?_⟩
      · intro n hn
        simp only [registerAllKernels, hc', Bool.false_eq_true, if_false] at hn
        rcases hih.1 n hn with h | ⟨k, hk, rfl⟩
        · rcases hreg.1 n h with h' | rfl
          · exact Or.inl h'
          · exact Or.inr ⟨name, by simp, rfl⟩
        · exact Or.inr ⟨k, by simp [hk], rfl⟩
      · intro n hn
        simp only [registerAllKernels, hc', Bool.false_eq_true, if_false] at hn
        rcases hih.2.1 n hn with h | ⟨k, hk, rfl⟩
        · rcases hreg.2.1 n h with h' | rfl
          · exact Or.inl h'
          · exact Or.inr ⟨name, by simp, rfl⟩
        · exact Or.inr ⟨k, by simp [hk], rfl⟩
      · intro r hr
        simp only [registerAllKernels, hc', Bool.false_eq_true, if_false] at hr
        rcases List.mem_cons.mp hr with rfl | hrt
        · exact Or.inr ⟨name, by simp, hreg.2.2⟩
        · rcases hih.2.2 r hrt with h | ⟨k, hk, hr'⟩
          · exact Or.inl h
          · exact Or.inr ⟨k, by simp [hk], hr'⟩

/-! ### Claim C9 -/

theorem firstSome_eq_none {l : List (Option String)} :
    firstSome l = none ↔ ∀ x ∈ l, x = none := by
  induction l with
  | nil => simp [firstSome]
  | cons a t ih =>
    cases a with
    | none => simpa [firstSome] using ih
    | some m => simp [firstSome]

theorem checkOptStr_eq_none {k : Json} {field msg : String} :
    checkOptStr k field msg = none ↔ OptStrOk k field := by
  unfold checkOptStr OptStrOk
  cases h : k.getField field with
  | none => simp [h]
  | some v =>
    by_cases hv : v.isStr
    · simp [hv, h]
    · simp only [hv, if_false, Bool.false_eq_true]
      constructor
      · intro hc
        exact absurd hc (by simp)
      · intro hall
        exact absurd (hall v rfl) (by simp [hv])

theorem checkDisplayName_eq_none {name : String} {k : Json} :
    checkDisplayName name k = none ↔
      ∃ s, k.getField "display_name" = some (.str s) ∧ s ≠ "" := by
  unfold checkDisplayName
  cases h : k.getField "display_name" with
  | none => simp [h]
  | some v =>
    cases v with
    | str s =>
      by_cases hs : s == ""
      · have : s = "" := by simpa using hs
        subst this
        simp [hs]
      · have hne : s ≠ "" := by simpa using hs
        simp [hs, hne]
    | null => simp
    | bool b => simp
    | num n => simp
    | arr es => simp
    | obj fs => simp

theorem checkEnv_eq_none {name : String} {k : Json} :
    checkEnv name k = none ↔
      ∀ e, k.getField "env" = some e → e.isObjectNonNull = true := by
  unfold checkEnv
  cases h : k.getField "env" with
  | none => simp [h]
  | some e =>
    by_cases he : e.isObjectNonNull
    · simp [he, h]
    · simp only [he, Bool.false_eq_true, if_false]
      constructor
      · intro hc; exact absurd hc (by simp)
      · intro hall; exact absurd (hall e rfl) (by simp [he])

theorem validateVariantList_eq_none {kname : String}
    {vs : List (String × Json)} :
    validateVariantList kname vs = none ↔ ∀ p ∈ vs, ValidVariant p.2 := by
  induction vs with
  | nil => simp [validateVariantList]
  | cons hd rest ih =>
    obtain ⟨vn, v⟩ := hd
    by_cases ho : v.isObjectNonNull
    · cases h : v.getField "requirements_file" with
      | none =>
        simp only [validateVariantList, ho, Bool.not_true, Bool.false_eq_true,
          if_false, h]
        constructor
        · intro hc; exact absurd hc (by simp)
        · intro hall
          obtain ⟨-, s, hs, -⟩ := hall (vn, v) (List.mem_cons_self _ _)
          simp [h] at hs
      | some rv =>
        cases rv with
        | str s =>
          by_cases hs : s == ""
          · have hs' : s = "" := by simpa using hs
            subst hs'
            simp only [validateVariantList, ho, Bool.not_true,
              Bool.false_eq_true, if_false, h, hs]
            constructor
            · intro hc; exact absurd hc (by simp)
            · intro hall
              obtain ⟨-, s', hs', hne⟩ := hall (vn, v) (List.mem_cons_self _ _)
              rw [h] at hs'
              obtain rfl : "" = s' := by simpa using hs'
              exact absurd rfl hne
          · have hne : s ≠ "" := by simpa using hs
            simp only [validateVariantList, ho, Bool.not_true,
              Bool.false_eq_true, if_false, h, hs, ih]
            constructor
            · intro hall
              intro p hp
              rcases List.mem_cons.mp hp with rfl | hrest
              · exact ⟨ho, s, h, hne⟩
              · exact hall p hrest
            · intro hall p hp
              exact hall p (List.mem_cons_of_mem _ hp)
        | null =>
          simp only [validateVariantList, ho, Bool.not_true,
            Bool.false_eq_true, if_false, h]
          constructor
          · intro hc; exact absurd hc (by simp)
          · intro hall
            obtain ⟨-, s, hs, -⟩ := hall (vn, v) (List.mem_cons_self _ _)
            rw [h] at hs
            simp at hs
        | bool b =>
          simp only [validateVariantList, ho, Bool.not_true,
            Bool.false_eq_true, if_false, h]
          constructor
          · intro hc; exact absurd hc (by simp)
          · intro hall
            obtain ⟨-, s, hs, -⟩ := hall (vn, v) (List.mem_cons_self _ _)
            rw [h] at hs
            simp at hs
        | num n =>
          simp only [validateVariantList, ho, Bool.not_true,
            Bool.false_eq_true, if_false, h]
          constructor
          · intro hc; exact absurd hc (by simp)
          · intro hall
            obtain ⟨-, s, hs, -⟩ := hall (vn, v) (List.mem_cons_self _ _)
            rw [h] at hs
            simp at hs
        | arr es =>
          simp only [validateVariantList, ho, Bool.not_true,
            Bool.false_eq_true, if_false, h]
          constructor
          · intro hc; exact absurd hc (by simp)
          · intro hall
            obtain ⟨-, s, hs, -⟩ := hall (vn, v) (List.mem_cons_self _ _)
            rw [h] at hs
            simp at hs
        | obj fs =>
          simp only [validateVariantList, ho, Bool.not_true,
            Bool.false_eq_true, if_false, h]
          constructor
          · intro hc; exact absurd hc (by simp)
          · intro hall
            obtain ⟨-, s, hs, -⟩ := hall (vn, v) (List.mem_cons_self _ _)
            rw [h] at hs
            simp at hs
    · have ho' := eq_false_of_ne_true ho
      simp only [validateVariantList, ho', Bool.not_false, if_true]
      constructor
      · intro hc; exact absurd hc (by simp)
      · intro hall
        obtain ⟨hobj, -⟩ := hall (vn, v) (List.mem_cons_self _ _)
        simp [hobj] at ho'

theorem checkVariants_eq_none {name : String} {k : Json} :
    checkVariants name k = none ↔
      ∀ v, k.getField "variants" = some v →
        v.isObjectNonNull = true ∧ ∀ p ∈ v.entries, ValidVariant p.2 := by
  unfold checkVariants
  cases h : k.getField "variants" with
  | none => simp
  | some v =>
    by_cases ho : v.isObjectNonNull
    · simp only [ho, Bool.not_true, Bool.false_eq_true, if_false,
        validateVariantList_eq_none]
      constructor
      · intro hall v' hv'
        obtain rfl : v = v' := by simpa using hv'
        exact ⟨ho, hall⟩
      · intro hall
        exact (hall v rfl).2
    · have ho' := eq_false_of_ne_true ho
      simp only [ho', Bool.not_false, if_true]
      constructor
      · intro hc; exact absurd hc (by simp)
      · intro hall
        obtain ⟨hobj, -⟩ := hall v rfl
        simp [hobj] at ho'

theorem validateKernel_eq_none {name : String} {k : Json} :
    validateKernel name k = none ↔ ValidKernel k := by
  unfold validateKernel ValidKernel
  by_cases ho : k.isObjectNonNull
  · simp only [ho, Bool.not_true, Bool.false_eq_true, if_false,
      firstSome_eq_none, List.mem_cons, List.not_mem_nil, or_false,
      forall_eq_or_imp, forall_eq, true_and]
    rw [checkDisplayName_eq_none, checkOptStr_eq_none, checkOptStr_eq_none,
      checkOptStr_eq_none, checkEnv_eq_none, checkVariants_eq_none]
  · have ho' := eq_false_of_ne_true ho
    simp [ho']

theorem validateKernelList_eq_none {ks : List (String × Json)} :
    validateKernelList ks = none ↔ ∀ p ∈ ks, ValidKernel p.2 := by
  induction ks with
  | nil => simp [validateKernelList]
  | cons hd rest ih =>
    obtain ⟨name, k⟩ := hd
    cases h : validateKernel name k with
    | some m =>
      simp only [validateKernelList, h]
      constructor
      · intro hc; exact absurd hc (by simp)
      · intro hall
        have := (@validateKernel_eq_none name k).mpr
          (hall (name, k) (List.mem_cons_self _ _))
        rw [h] at this
        simp at this
    | none =>
      have hk := (@validateKernel_eq_none name k).mp h
      simp only [validateKernelList, h, ih]
      constructor
      · intro hall p hp
        rcases List.mem_cons.mp hp with rfl | hrest
        · exact hk
        · exact hall p hrest
      · intro hall p hp
        exact hall p (List.mem_cons_of_mem _ hp)

theorem validateConfig_eq_none {j : Json} :
    validateConfig j = none ↔ ValidConfig j := by
  unfold validateConfig ValidConfig
  by_cases ho : j.isObjectNonNull
  · simp only [ho, Bool.not_true, Bool.false_eq_true, if_false, true_and]
    cases h : j.getField "kernels" with
    | none => simp
    | some k =>
      by_cases ht : (k.truthy && k.typeofObject) = true
      · simp only [ht, Bool.not_true, Bool.false_eq_true, if_false,
          validateKernelList_eq_none]
        constructor
        · intro hall
          exact ⟨k, rfl, ht, hall⟩
        · rintro ⟨k', hk', -, hall⟩
          obtain rfl : k = k' := by simpa using hk'
          exact hall
      · have ht' := eq_false_of_ne_true ht
        simp only [ht', Bool.not_false, if_true]
        constructor
        · intro hc; exact absurd hc (by simp)
        · rintro ⟨k', hk', htk, -⟩
          obtain rfl : k = k' := by simpa using hk'
          simp [htk] at ht'
  · have ho' := eq_false_of_ne_true ho
    simp [ho']

/-- C9: `validateConfig` accepts exactly the values passing the documented
checks (soundness and completeness of the validator, first conjunct), and —
being a pure function applying the checks in the documented order — returns
the message of the first offending field deterministically, illustrated by
the ordering instances: an earlier check's message wins within a kernel, and
the first kernel entry in iteration order wins across kernels. -/
theorem validateConfig_spec :
    (∀ j, validateConfig j = none ↔ ValidConfig j) ∧
    validateConfig (.num 3) = some "Config must be a JSON object" ∧
    validateConfig (.obj [("other", .num 1)]) =
      some "Config must contain a \"kernels\" object" ∧
    validateConfig (.obj [("kernels", .null)]) =
      some "Config must contain a \"kernels\" object" ∧
    validateConfig (.obj [("kernels", .obj [("a", .num 7)])]) =
      some "Kernel \"a\" must be an object" ∧
    validateConfig (.obj [("kernels", .obj [("a", .obj [("env", .num 5)])])]) =
      some "Kernel \"a\" must have a non-empty \"display_name\" string" ∧
    validateConfig (.obj [("kernels", .obj [("a", .obj
        [("display_name", .str "A"), ("description", .num 2),
         ("variants", .num 3)])])]) =
      some "Kernel \"a\": \"description\" must be a string" ∧
    validateConfig (.obj [("kernels", .obj
        [("a", .obj [("display_name", .str "A"),
           ("variants", .obj [("gpu", .obj [])])]),
         ("b", .num 0)])]) =
      some "Kernel \"a\", variant \"gpu\" must have a \"requirements_file\" string" ∧
    validateConfig (.obj [("kernels", .obj [("a", .obj
        [("display_name", .str "A"), ("description", .str ""),
         ("requirements_file", .str "r.txt"), ("python_version", .str "3.11"),
         ("env", .obj [("KEY", .str "v")]),
         ("variants", .obj [("gpu", .obj
           [("requirements_file", .str "r-gpu.txt")])])])])]) = none := by
  refine ⟨fun j => validateConfig_eq_none, ?_, ?_, ?_, ?_, ?_, ?_, ?_, ?_⟩ <;>
    rfl

end JupyterKernelManager
